import Mathlib

/-!
# now-react: the emoji square and its state file

A shallow embedding of `src/main.go`.

Modelling conventions.

* A Go `string` is a Lean `String`, a Go `int` is an `Int` (the 64-bit range
  matters only where `encoding/json` parses a number into an `int`).
* A Go `[]string` field that may be the nil slice is an `Option (List String)`.
* The bytes of a request body or of a file are represented by what the scanner
  of `encoding/json` makes of them (`Scanned`): either no JSON value can be
  read, or the JSON value that is read. White space and indentation are not
  represented.
* The file system is represented by what `os.Stat`, `os.ReadFile`,
  `os.MkdirAll` and `os.WriteFile` do at `dir` and `dir/state.json`.
* A handler is a function from the process state (`World`) to the new process
  state and the HTTP response it writes.
-/

set_option maxRecDepth 100000

namespace NowReact

/-! ## Package-level constants and variables -/

/-- The constant `size`. -/
def size : Nat := 16

/-- The constant `stateFileName`. -/
def stateFileName : String := "state.json"

/-- The variable `defaultNamespace` (never assigned after its declaration). -/
def defaultNamespace : String := "nowreact"

/-- The variable `dir` after `init()` has run: `envDir` is the value of
`os.Getenv("NOWREACT_DIR")`, the empty string when the variable is unset. -/
def dir (envDir : String) : String :=
  if envDir ≠ "" then envDir else ".nowreact"

/-! ## JSON values, as `encoding/json` scans them -/

/-- A JSON value. A number literal without fraction or exponent is `int`,
any other number literal is `float` and keeps its text. -/
inductive Json where
  | null
  | bool (b : Bool)
  | int (n : Int)
  | float (lit : String)
  | str (s : String)
  | arr (items : List Json)
  | obj (fields : List (String × Json))

/-- What the JSON scanner makes of a sequence of bytes (a request body read by
`json.Decoder.Decode`, a file checked by `json.Unmarshal`): `malformed` when
no JSON value can be read (empty input, syntax error), `value v` otherwise. -/
inductive Scanned where
  | malformed
  | value (v : Json)

/-- The errors of `encoding/json` met in this program. -/
inductive JsonError where
  /-- Any of `*json.SyntaxError`, `io.EOF`, `io.ErrUnexpectedEOF`. -/
  | badSyntax
  /-- A `*json.UnmarshalTypeError` with its `Value` and `Field`. -/
  | unmarshalType (value : String) (field : String)
  /-- A `*json.InvalidUnmarshalError` with the Go type of the target. -/
  | invalidUnmarshal (goType : String)
  deriving DecidableEq

/-- The `Value` of the `UnmarshalTypeError` for a JSON value refused by a
target that is not a number (a string, a struct): the kind of the value. -/
def Json.kind : Json → String
  | .null => "null"
  | .bool _ => "bool"
  | .int _ => "number"
  | .float _ => "number"
  | .str _ => "string"
  | .arr _ => "array"
  | .obj _ => "object"

/-- The `Value` of the `UnmarshalTypeError` for a JSON value refused by an
`int` target: a number is given with its literal, any other value by its
kind. -/
def Json.describe : Json → String
  | .int n => "number " ++ toString n
  | .float lit => "number " ++ lit
  | other => other.kind

/-! ## The state and the submission -/

/-- The struct `State`; `Square` is `none` for the nil slice. -/
structure State where
  Height : Int
  Namespace : String
  Square : Option (List String)
  deriving DecidableEq

/-- The function `DefaultState()`; `make([]string, size*size)` is `size*size` empty strings. -/
def DefaultState : State :=
  { Height := 1
    Namespace := defaultNamespace
    Square := some (List.replicate (size * size) "") }

/-- The struct `EmojiSubmission`. Its JSON names are given by the struct tags:
`Emoji` is `"emoji"` and `Index` is `"location"`. -/
structure EmojiSubmission where
  Emoji : String
  Index : Int
  deriving DecidableEq

/-- The fields of `EmojiSubmission`. -/
inductive SubmissionField where
  | Emoji
  | Index
  deriving DecidableEq

/-- The JSON name of a field of `EmojiSubmission`, from its struct tag. -/
def SubmissionField.tag : SubmissionField → String
  | .Emoji => "emoji"
  | .Index => "location"

/-- Case folding of an object key as `encoding/json` does it for names made
of ASCII letters other than `k` and `s`: letters are taken to upper case. -/
def foldName (s : String) : List Char := s.data.map Char.toUpper

/-- Whether the object key `key` selects the field named `tag`: an exact
match, or else a match after case folding. -/
def keyMatches (tag key : String) : Bool :=
  key == tag || foldName key == foldName tag

/-- The field of `EmojiSubmission` an object key selects, if any. -/
def fieldFor (key : String) : Option SubmissionField :=
  if keyMatches SubmissionField.Emoji.tag key then some .Emoji
  else if keyMatches SubmissionField.Index.tag key then some .Index
  else none

/-- The least value of a Go `int` (64 bits). -/
def minInt : Int := -9223372036854775808

/-- The greatest value of a Go `int` (64 bits). -/
def maxInt : Int := 9223372036854775807

/-- The decoder's state while it fills an `EmojiSubmission`: the struct so
far and the first `UnmarshalTypeError` saved (`d.savedError`). -/
structure DecodeState where
  sub : EmojiSubmission
  savedError : Option JsonError
  deriving DecidableEq

/-- The method `saveError`: only the first error is kept. -/
def DecodeState.saveError (st : DecodeState) (e : JsonError) : DecodeState :=
  match st.savedError with
  | none => { st with savedError := some e }
  | some _ => st

/-- Storing a JSON value into the string field `Emoji`: a string is stored,
`null` leaves the field as it is, anything else is a type error. -/
def storeEmoji (st : DecodeState) (v : Json) : DecodeState :=
  match v with
  | .str s => { st with sub := { st.sub with Emoji := s } }
  | .null => st
  | other => st.saveError (.unmarshalType other.kind SubmissionField.Emoji.tag)

/-- Storing a JSON value into the `int` field `Index`: an integer literal in
the range of `int` is stored, `null` leaves the field as it is, anything else
(another kind of value, a literal with fraction or exponent, an integer out
of range) is a type error. -/
def storeIndex (st : DecodeState) (v : Json) : DecodeState :=
  match v with
  | .int n =>
    if minInt ≤ n ∧ n ≤ maxInt then { st with sub := { st.sub with Index := n } }
    else st.saveError (.unmarshalType (Json.int n).describe SubmissionField.Index.tag)
  | .null => st
  | other => st.saveError (.unmarshalType other.describe SubmissionField.Index.tag)

/-- One member of a JSON object decoded into an `EmojiSubmission`: the key
selects a field, or the member is skipped. -/
def decodeMember (st : DecodeState) (kv : String × Json) : DecodeState :=
  match fieldFor kv.1 with
  | some .Emoji => storeEmoji st kv.2
  | some .Index => storeIndex st kv.2
  | none => st

/-- Decoding a JSON value into a zero-valued `EmojiSubmission`: an object is
decoded member by member in order, `null` leaves the struct as it is, any
other value is a type error. -/
def decodeValue (v : Json) : DecodeState :=
  let zero : DecodeState := { sub := { Emoji := "", Index := 0 }, savedError := none }
  match v with
  | .obj fields => fields.foldl decodeMember zero
  | .null => zero
  | other => zero.saveError (.unmarshalType other.kind "")

/-- The call `json.NewDecoder(r.Body).Decode(&submission)` with `submission` the zero
value: the error, or the submission decoded. -/
def Decode (body : Scanned) : Except JsonError EmojiSubmission :=
  match body with
  | .malformed => .error .badSyntax
  | .value v =>
    match (decodeValue v).savedError with
    | some e => .error e
    | none => .ok (decodeValue v).sub

/-! ## The file system at `dir` and `dir/state.json` -/

/-- An error of the operating system other than "does not exist". -/
structure IOErr where
  msg : String
  deriving DecidableEq

/-- An error returned by a function of package `os`. -/
inductive OsError where
  /-- An error for which `os.IsNotExist` is true. -/
  | notExist
  | other (e : IOErr)
  deriving DecidableEq

/-- What lies at `dir/state.json`.

* `absent`: nothing is there, and `os.Stat` reports that the path does not
  exist.
* `notDir err`: nothing is there because `dir` is not a directory (a regular
  file lies at `dir`); `os.Stat`, `os.ReadFile`, `os.MkdirAll` and
  `os.WriteFile` fail with `err`, of which `os.IsNotExist` is false.
* `file data readErr`: a file is there; `os.ReadFile` fails with `readErr`
  when there is one and returns `data` when there is none. -/
inductive FileNode where
  | absent
  | notDir (err : IOErr)
  | file (data : Scanned) (readErr : Option IOErr)

/-- The state of the file system as this program meets it: the node at
`dir/state.json`, the error with which `os.MkdirAll(dir, 0755)` fails, if it
does, and the error with which `os.WriteFile(filename, data, 0644)` fails, if
it does. -/
structure FS where
  node : FileNode
  mkdirErr : Option IOErr
  writeErr : Option IOErr

/-- The call `os.Stat(filename)`, its error only (`none` is the nil error).
For a file that is there the error, if any, is not one of `os.IsNotExist`, and
the program makes no other use of it. -/
def osStat (fs : FS) : Option OsError :=
  match fs.node with
  | .absent => some .notExist
  | .notDir e => some (.other e)
  | .file _ _ => none

/-- The call `os.IsNotExist(err)`. -/
def osIsNotExist (err : Option OsError) : Bool :=
  match err with
  | some .notExist => true
  | _ => false

/-- The call `os.ReadFile(filename)`. -/
def osReadFile (fs : FS) : Except OsError Scanned :=
  match fs.node with
  | .absent => .error .notExist
  | .notDir e => .error (.other e)
  | .file _ (some e) => .error (.other e)
  | .file data none => .ok data

/-- The call `os.MkdirAll(dir, 0755)`: the error, or the file system afterwards. -/
def osMkdirAll (fs : FS) : Except IOErr FS :=
  match fs.node with
  | .notDir e => .error e
  | _ =>
    match fs.mkdirErr with
    | some e => .error e
    | none => .ok fs

/-- The call `os.WriteFile(filename, data, 0644)`: the error, or the file system
afterwards. A file that is created can be read; a file that was there keeps
its permissions. -/
def osWriteFile (fs : FS) (data : Scanned) : Except IOErr FS :=
  match fs.writeErr with
  | some e => .error e
  | none =>
    match fs.node with
    | .absent => .ok { fs with node := .file data none }
    | .notDir e => .error e
    | .file _ readErr => .ok { fs with node := .file data readErr }

/-- Whether a file exists at `dir/state.json`. -/
def fileExists (fs : FS) : Bool :=
  match fs.node with
  | .file _ _ => true
  | _ => false

/-! ## `LoadState` and `SaveState` -/

/-- The error `LoadState` returns. -/
inductive LoadError where
  | os (e : OsError)
  | json (e : JsonError)
  deriving DecidableEq

/-- The engine behind `encoding/json`, which depends on the Go toolchain the
program is built with. The two differ, for this program, in the order of the
checks `json.Unmarshal` makes. -/
inductive JsonEngine where
  /-- The input is checked for syntax first, the target afterwards. -/
  | classic
  /-- The target is checked first, the input is read afterwards. -/
  | v2
  deriving DecidableEq

/-- The call `json.Unmarshal(data, state)` where `state` is the nil `*State`
that `var state *State` declares. A nil target is refused with an
`InvalidUnmarshalError`; the classic engine checks the input before that and
returns the syntax error of an input that is not JSON. The result is the
error (`none` would be nil). -/
def jsonUnmarshalNil (engine : JsonEngine) (data : Scanned) : Option JsonError :=
  match engine, data with
  | .classic, .malformed => some .badSyntax
  | _, _ => some (.invalidUnmarshal "*main.State")

/-- The function `LoadState()`: the pair `(*State, error)`, with `none` for nil. -/
def LoadState (engine : JsonEngine) (fs : FS) : Option State × Option LoadError :=
  if osIsNotExist (osStat fs) then
    (some DefaultState, none)
  else
    match osReadFile fs with
    | .error err => (none, some (.os err))
    | .ok data =>
      let state : Option State := none
      match jsonUnmarshalNil engine data with
      | some err => (none, some (.json err))
      | none => (state, none)

/-- The JSON object `encoding/json` writes for a `State`: the members
`height`, `namespace` and `emojis` in the order of the struct's fields; the
nil slice is `null`. -/
def stateJson (state : State) : Json :=
  .obj
    [ ("height", .int state.Height),
      ("namespace", .str state.Namespace),
      ("emojis", match state.Square with
                 | none => .null
                 | some cells => .arr (cells.map .str)) ]

/-- The call `json.MarshalIndent(state, "", "  ")`. Marshalling a `State`
cannot fail. -/
def jsonMarshalIndent (state : State) : Except JsonError Scanned :=
  .ok (.value (stateJson state))

/-- The error `SaveState` returns, by the message `fmt.Errorf` wraps it in. -/
inductive SaveError where
  | marshalingState (e : JsonError)
  | creatingDirectory (e : IOErr)
  | writingStateFile (e : IOErr)
  deriving DecidableEq

/-- The function `SaveState(state)`: the file system afterwards and the error returned
(`none` for nil). A write that fails leaves the node as it was. -/
def SaveState (state : State) (fs : FS) : FS × Option SaveError :=
  match jsonMarshalIndent state with
  | .error err => (fs, some (.marshalingState err))
  | .ok data =>
    match osMkdirAll fs with
    | .error err => (fs, some (.creatingDirectory err))
    | .ok fs1 =>
      match osWriteFile fs1 data with
      | .error err => (fs1, some (.writingStateFile err))
      | .ok fs2 => (fs2, none)

/-! ## The handlers -/

/-- Modelled from the spec: the package-level variable `square` that the
handlers read and write is not declared in `src/main.go`; the handlers use
its fields `Height` (an `int`) and `Emojis` (indexed by `int`, holding
strings, with a `len`), the grid being an ordered sequence of strings. -/
structure SquareVar where
  Height : Int
  Emojis : List String
  deriving DecidableEq

/-- The state of the process: the variable `square` and the file system. -/
structure World where
  square : SquareVar
  disk : FS

/-- The body of an HTTP response. -/
inductive Payload where
  | empty
  /-- The text `http.Error` writes: the message and a new line. -/
  | text (s : String)
  /-- The text of `err.Error()` for an error of `encoding/json`, written by
  `http.Error`. -/
  | errorText (e : JsonError)
  /-- A JSON value written by `json.Encoder.Encode`. -/
  | json (v : Json)

/-- An HTTP response: status code and body. -/
structure Response where
  status : Nat
  body : Payload

/-- The constant `http.StatusOK`. -/
def StatusOK : Nat := 200

/-- The constant `http.StatusBadRequest`. -/
def StatusBadRequest : Nat := 400

/-- The handler `statusHandler`: encodes `map[string]int{"height": square.Height}`. -/
def statusHandler (w : World) : World × Response :=
  (w, { status := StatusOK, body := .json (.obj [("height", .int w.square.Height)]) })

/-- The handler `getSquareHandler`: encodes `square.Emojis`. -/
def getSquareHandler (w : World) : World × Response :=
  (w, { status := StatusOK, body := .json (.arr (w.square.Emojis.map .str)) })

/-- The handler `postEmojiHandler`, on the request body `body`. -/
def postEmojiHandler (w : World) (body : Scanned) : World × Response :=
  match Decode body with
  | .error err => (w, { status := StatusBadRequest, body := .errorText err })
  | .ok submission =>
    if submission.Index < 0 ∨ submission.Index ≥ (w.square.Emojis.length : Int) then
      (w, { status := StatusBadRequest, body := .text "Invalid index\n" })
    else
      ({ w with square :=
          { w.square with
            Emojis := w.square.Emojis.set submission.Index.toNat submission.Emoji } },
       { status := StatusOK, body := .empty })

/-- The process state after a sequence of requests to `/postEmoji`, given by
their bodies, served one after the other. -/
def run (w : World) (bodies : List Scanned) : World :=
  bodies.foldl (fun w body => (postEmojiHandler w body).1) w

/-- The variable `square` holding the grid and height of a `State`. -/
def squareOf (s : State) : SquareVar :=
  { Height := s.Height, Emojis := s.Square.getD [] }

/-- A file system with nothing at `dir/state.json` and no failing operation. -/
def emptyDisk : FS := { node := .absent, mkdirErr := none, writeErr := none }


/-- A world whose grid is that of `DefaultState()` and whose file system has
nothing at `dir/state.json`. -/
def defaultWorld : World := { square := squareOf DefaultState, disk := emptyDisk }

/-- The request body `{"emoji": e, "location": i}`. -/
def submissionBody (e : String) (i : Int) : Scanned :=
  .value (.obj [("emoji", .str e), ("location", .int i)])

/-- The values of the members of a JSON object whose keys select the field
`f` of `EmojiSubmission`, in the order of the object. -/
def membersFor (f : SubmissionField) (fields : List (String × Json)) : List Json :=
  (fields.filter (fun kv => fieldFor kv.1 = some f)).map Prod.snd

/-- The request body `{"emoji": e, "index": i}`. -/
def indexBody (e : String) (i : Int) : Scanned :=
  .value (.obj [("emoji", .str e), ("index", .int i)])

/-- A file system in which a regular file lies at `dir`, so that nothing
exists at `dir/state.json`. -/
def notDirDisk : FS :=
  { node := .notDir { msg := "not a directory" }, mkdirErr := none, writeErr := none }

/-- A file system with a readable file of content `data` at `dir/state.json`
and no failing operation. -/
def diskWith (data : Scanned) : FS :=
  { node := .file data none, mkdirErr := none, writeErr := none }

/-! ## Lemmas on the handler -/

/-- The accepting branch of `postEmojiHandler`. -/
theorem postEmojiHandler_accept (w : World) (body : Scanned) (sub : EmojiSubmission)
    (hdec : Decode body = .ok sub)
    (hin : ¬ (sub.Index < 0 ∨ sub.Index ≥ (w.square.Emojis.length : Int))) :
    postEmojiHandler w body =
      ({ w with square :=
          { w.square with Emojis := w.square.Emojis.set sub.Index.toNat sub.Emoji } },
       { status := StatusOK, body := .empty }) := by
  simp only [postEmojiHandler, hdec, if_neg hin]

/-- The rejecting branch of `postEmojiHandler`. -/
theorem postEmojiHandler_reject (w : World) (body : Scanned) (sub : EmojiSubmission)
    (hdec : Decode body = .ok sub)
    (hout : sub.Index < 0 ∨ sub.Index ≥ (w.square.Emojis.length : Int)) :
    postEmojiHandler w body =
      (w, { status := StatusBadRequest, body := .text "Invalid index\n" }) := by
  simp only [postEmojiHandler, hdec, if_pos hout]

/-- No request changes the length of the grid. -/
theorem postEmojiHandler_length (w : World) (body : Scanned) :
    (postEmojiHandler w body).1.square.Emojis.length = w.square.Emojis.length := by
  unfold postEmojiHandler
  split
  · rfl
  · split
    · rfl
    · simp

theorem run_nil (w : World) : run w [] = w := rfl

theorem run_cons (w : World) (body : Scanned) (bodies : List Scanned) :
    run w (body :: bodies) = run (postEmojiHandler w body).1 bodies := rfl

theorem run_length (bodies : List Scanned) :
    ∀ w : World, (run w bodies).square.Emojis.length = w.square.Emojis.length := by
  induction bodies with
  | nil => intro w; rfl
  | cons body rest ih =>
    intro w
    rw [run_cons, ih, postEmojiHandler_length]

theorem run_replicate_fixed (w : World) (body : Scanned)
    (hfix : (postEmojiHandler w body).1 = w) :
    ∀ n : Nat, run w (List.replicate n body) = w := by
  intro n
  induction n with
  | zero => rfl
  | succ k ih => rw [List.replicate_succ, run_cons, hfix, ih]

/-- C1: with a decoded submission `(e, i)`, `0 ≤ i < size*size`, on a grid
of `size*size` cells, `postEmojiHandler` answers 200, cell `i` is `e`
afterwards and every other cell is as before. -/
theorem postEmojiHandler_sets_cell (w : World) (body : Scanned) (e : String) (i : Int)
    (hdec : Decode body = .ok { Emoji := e, Index := i })
    (hlen : w.square.Emojis.length = size * size)
    (h0 : 0 ≤ i) (h1 : i < ((size * size : Nat) : Int)) :
    (postEmojiHandler w body).2.status = StatusOK ∧
    (postEmojiHandler w body).1.square.Emojis[i.toNat]? = some e ∧
    (∀ j : Nat, j ≠ i.toNat →
      (postEmojiHandler w body).1.square.Emojis[j]? = w.square.Emojis[j]?) ∧
    (postEmojiHandler w body).1.square.Emojis.length = size * size := by
  have hin : ¬ ((EmojiSubmission.mk e i).Index < 0 ∨
      (EmojiSubmission.mk e i).Index ≥ (w.square.Emojis.length : Int)) := by
    simp only [hlen]; omega
  rw [postEmojiHandler_accept w body _ hdec hin]
  have hi : i.toNat < w.square.Emojis.length := by rw [hlen]; omega
  refine ⟨rfl, ?_, ?_, ?_⟩
  · simp [hi]
  · intro j hj
    simp [List.getElem?_set, Ne.symm hj]
  · simp [hlen]

/-- Witness of C1: the cell 255 of the default grid. -/
theorem postEmojiHandler_sets_cell_witness :
    Decode (submissionBody "🔥" 255) = .ok { Emoji := "🔥", Index := 255 } ∧
    defaultWorld.square.Emojis.length = size * size ∧
    ((postEmojiHandler defaultWorld (submissionBody "🔥" 255)).2.status = StatusOK ∧
     (postEmojiHandler defaultWorld (submissionBody "🔥" 255)).1.square.Emojis[(255 : Int).toNat]?
        = some "🔥" ∧
     (∀ j : Nat, j ≠ (255 : Int).toNat →
        (postEmojiHandler defaultWorld (submissionBody "🔥" 255)).1.square.Emojis[j]?
          = defaultWorld.square.Emojis[j]?) ∧
     (postEmojiHandler defaultWorld (submissionBody "🔥" 255)).1.square.Emojis.length
        = size * size) :=
  ⟨rfl, rfl,
    postEmojiHandler_sets_cell defaultWorld (submissionBody "🔥" 255) "🔥" 255 rfl rfl
      (by decide) (by decide)⟩

/-- C2: with a decoded submission `(e, i)`, `i < 0` or `i ≥ size*size`, on a
grid of `size*size` cells, `postEmojiHandler` answers 400 "Invalid index" and
leaves the process state as it was; the same request served any number of
times leaves it as it was. -/
theorem postEmojiHandler_rejects_invalid_index (w : World) (body : Scanned)
    (e : String) (i : Int)
    (hdec : Decode body = .ok { Emoji := e, Index := i })
    (hlen : w.square.Emojis.length = size * size)
    (hi : i < 0 ∨ i ≥ ((size * size : Nat) : Int)) :
    (postEmojiHandler w body).2.status = StatusBadRequest ∧
    (postEmojiHandler w body).2.body = .text "Invalid index\n" ∧
    (postEmojiHandler w body).1 = w ∧
    ∀ n : Nat, run w (List.replicate n body) = w := by
  have hout : (EmojiSubmission.mk e i).Index < 0 ∨
      (EmojiSubmission.mk e i).Index ≥ (w.square.Emojis.length : Int) := by
    simp only [hlen]; omega
  have hrej := postEmojiHandler_reject w body _ hdec hout
  refine ⟨by rw [hrej], by rw [hrej], by rw [hrej], ?_⟩
  exact run_replicate_fixed w body (by rw [hrej])

/-- Witness of C2: the index 256 on the default grid. -/
theorem postEmojiHandler_rejects_invalid_index_witness :
    Decode (submissionBody "x" 256) = .ok { Emoji := "x", Index := 256 } ∧
    defaultWorld.square.Emojis.length = size * size ∧
    ((256 : Int) < 0 ∨ (256 : Int) ≥ ((size * size : Nat) : Int)) ∧
    ((postEmojiHandler defaultWorld (submissionBody "x" 256)).2.status = StatusBadRequest ∧
     (postEmojiHandler defaultWorld (submissionBody "x" 256)).2.body = .text "Invalid index\n" ∧
     (postEmojiHandler defaultWorld (submissionBody "x" 256)).1 = defaultWorld ∧
     ∀ n : Nat, run defaultWorld (List.replicate n (submissionBody "x" 256)) = defaultWorld) :=
  ⟨rfl, rfl, by decide,
    postEmojiHandler_rejects_invalid_index defaultWorld (submissionBody "x" 256) "x" 256
      rfl rfl (by decide)⟩

/-- C7 (as amended): `postEmojiHandler` never calls `SaveState`; whatever the
request, accepted or not, the file system after the handler is the file
system before it. -/
theorem postEmojiHandler_leaves_disk (w : World) (body : Scanned) :
    (postEmojiHandler w body).1.disk = w.disk := by
  unfold postEmojiHandler
  split
  · rfl
  · split <;> rfl

/-- C7 (counterexample): on the default grid and a file system with nothing at
`dir/state.json`, the request `{"emoji": "x", "location": 3}` is accepted and
cell 3 becomes `"x"`, yet there is still nothing at `dir/state.json`: the
file does not hold the serialisation of any snapshot. -/
theorem postEmojiHandler_not_persisted :
    (postEmojiHandler defaultWorld (submissionBody "x" 3)).2.status = StatusOK ∧
    (postEmojiHandler defaultWorld (submissionBody "x" 3)).1.square.Emojis[3]? = some "x" ∧
    (postEmojiHandler defaultWorld (submissionBody "x" 3)).1.disk.node = .absent ∧
    ¬ ∃ (s : State) (data : Scanned) (readErr : Option IOErr),
        jsonMarshalIndent s = .ok data ∧
        (postEmojiHandler defaultWorld (submissionBody "x" 3)).1.disk.node
          = .file data readErr := by
  refine ⟨rfl, rfl, rfl, ?_⟩
  rintro ⟨s, data, readErr, -, h⟩
  have habs : (postEmojiHandler defaultWorld (submissionBody "x" 3)).1.disk.node
      = FileNode.absent := rfl
  rw [habs] at h
  cases h

/-- C8: in every state reached from the grid of `DefaultState()` by a finite
sequence of requests to `postEmojiHandler`, whatever their bodies, the grid
has `size*size = 256` cells, and `getSquareHandler` answers with an array of
256 strings. -/
theorem grid_length_invariant (disk : FS) (bodies : List Scanned) :
    (run { square := squareOf DefaultState, disk := disk } bodies).square.Emojis.length
      = size * size ∧
    size * size = 256 ∧
    ∃ cells : List String, cells.length = 256 ∧
      (getSquareHandler (run { square := squareOf DefaultState, disk := disk } bodies)).2.body
        = .json (.arr (cells.map .str)) := by
  have hlen := run_length bodies { square := squareOf DefaultState, disk := disk }
  have h0 : (squareOf DefaultState).Emojis.length = 256 := rfl
  refine ⟨by rw [hlen]; exact h0, rfl, ?_⟩
  exact ⟨_, by rw [hlen]; exact h0, rfl⟩

/-! ## `LoadState` and `SaveState` -/

/-- When `os.Stat` reports that `dir/state.json` does not exist, the result
of `LoadState`. -/
theorem LoadState_notExist (engine : JsonEngine) (fs : FS)
    (h : osIsNotExist (osStat fs) = true) :
    LoadState engine fs = (some DefaultState, none) := by
  simp [LoadState, h]

/-- When a file that cannot be read is at `dir/state.json`, the result of
`LoadState`. -/
theorem LoadState_unreadable (engine : JsonEngine) (fs : FS) (data : Scanned) (e : IOErr)
    (h : fs.node = .file data (some e)) :
    LoadState engine fs = (none, some (.os (.other e))) := by
  simp [LoadState, osStat, osIsNotExist, osReadFile, h]

/-- When a file that can be read is at `dir/state.json`, the result of
`LoadState`: the error `json.Unmarshal` returns for its nil target. -/
theorem LoadState_readable (engine : JsonEngine) (fs : FS) (data : Scanned)
    (h : fs.node = .file data none) :
    ∃ e, jsonUnmarshalNil engine data = some e ∧
      LoadState engine fs = (none, some (.json e)) := by
  cases engine <;> cases data <;>
    simp [LoadState, osStat, osIsNotExist, osReadFile, jsonUnmarshalNil, h]

/-- The error of `json.Unmarshal` for its nil target when the input is a JSON
value, on either engine. -/
theorem jsonUnmarshalNil_value (engine : JsonEngine) (v : Json) :
    jsonUnmarshalNil engine (.value v) = some (.invalidUnmarshal "*main.State") := by
  cases engine <;> rfl

/-- C4 (as amended): when `os.Stat` reports that `dir/state.json` does not
exist (`os.IsNotExist` is true of its error), `LoadState` returns a nil error
and the default snapshot: height 1, namespace `"nowreact"`, and a grid of
`size*size = 256` cells, each the empty string. -/
theorem LoadState_missing_file_default (engine : JsonEngine) (fs : FS)
    (h : osIsNotExist (osStat fs) = true) :
    LoadState engine fs = (some DefaultState, none) ∧
    DefaultState.Height = 1 ∧
    DefaultState.Namespace = "nowreact" ∧
    ∃ cells : List String, DefaultState.Square = some cells ∧
      cells.length = size * size ∧ size * size = 256 ∧ ∀ c ∈ cells, c = "" := by
  refine ⟨LoadState_notExist engine fs h, rfl, rfl,
    List.replicate (size * size) "", rfl, ?_, rfl, ?_⟩
  · simp
  · intro c hc
    exact List.eq_of_mem_replicate hc

/-- Witness of C4 (as amended): the file system with nothing at
`dir/state.json`, where `os.Stat` reports that the path does not exist. -/
theorem LoadState_missing_file_default_witness :
    osIsNotExist (osStat emptyDisk) = true ∧
    (LoadState .v2 emptyDisk = (some DefaultState, none) ∧
     DefaultState.Height = 1 ∧
     DefaultState.Namespace = "nowreact" ∧
     ∃ cells : List String, DefaultState.Square = some cells ∧
       cells.length = size * size ∧ size * size = 256 ∧ ∀ c ∈ cells, c = "") :=
  ⟨rfl, LoadState_missing_file_default .v2 emptyDisk rfl⟩

/-- C4 (counterexample): when a regular file lies at `dir`, no file exists at
`dir/state.json`, yet `os.Stat` fails with an error of which `os.IsNotExist`
is false, and `LoadState` returns a nil snapshot and the error of
`os.ReadFile`, not the default snapshot, on either engine. -/
theorem LoadState_notDir_not_default :
    fileExists notDirDisk = false ∧
    osIsNotExist (osStat notDirDisk) = false ∧
    LoadState .classic notDirDisk
      = (none, some (.os (.other { msg := "not a directory" }))) ∧
    LoadState .v2 notDirDisk
      = (none, some (.os (.other { msg := "not a directory" }))) :=
  ⟨rfl, rfl, rfl, rfl⟩

/-- C5: when a file exists at `dir/state.json`, then on either engine: if it
cannot be read (`os.ReadFile` fails with `e`), `LoadState` returns that read
error; if it can be read, whatever its content (text that is not JSON, JSON
that is not a snapshot), `LoadState` returns the error that `json.Unmarshal`
returns; in every case the error is not nil and the snapshot returned is nil,
not the default snapshot. -/
theorem LoadState_corrupt_file_error (engine : JsonEngine) (fs : FS) (data : Scanned)
    (readErr : Option IOErr) (hnode : fs.node = .file data readErr) :
    (∀ e, readErr = some e → LoadState engine fs = (none, some (.os (.other e)))) ∧
    (readErr = none → ∃ e, jsonUnmarshalNil engine data = some e ∧
      LoadState engine fs = (none, some (.json e))) ∧
    (LoadState engine fs).2 ≠ none ∧
    (LoadState engine fs).1 = none ∧
    (LoadState engine fs).1 ≠ some DefaultState := by
  cases readErr with
  | some e =>
    have hl := LoadState_unreadable engine fs data e hnode
    refine ⟨?_, ?_, ?_, ?_, ?_⟩
    · intro e2 he; cases he; exact hl
    · intro he; cases he
    · rw [hl]; simp
    · rw [hl]
    · rw [hl]; simp
  | none =>
    obtain ⟨e, he, hl⟩ := LoadState_readable engine fs data hnode
    refine ⟨?_, ?_, ?_, ?_, ?_⟩
    · intro e2 h2; cases h2
    · intro _; exact ⟨e, he, hl⟩
    · rw [hl]; simp
    · rw [hl]
    · rw [hl]; simp

/-- Witness of C5: a readable file whose content is not JSON. -/
theorem LoadState_corrupt_file_error_witness :
    (diskWith .malformed).node = .file .malformed none ∧
    ((∀ e, (none : Option IOErr) = some e →
        LoadState .v2 (diskWith .malformed) = (none, some (.os (.other e)))) ∧
     ((none : Option IOErr) = none → ∃ e, jsonUnmarshalNil .v2 .malformed = some e ∧
        LoadState .v2 (diskWith .malformed) = (none, some (.json e))) ∧
     (LoadState .v2 (diskWith .malformed)).2 ≠ none ∧
     (LoadState .v2 (diskWith .malformed)).1 = none ∧
     (LoadState .v2 (diskWith .malformed)).1 ≠ some DefaultState) :=
  ⟨rfl, LoadState_corrupt_file_error .v2 (diskWith .malformed) .malformed none rfl⟩

/-- C10: when a file exists at `dir/state.json`, whatever its content and on
either engine, `LoadState` returns a nil snapshot and a non-nil error; when
the file can be read and holds a JSON value, the error is the
`InvalidUnmarshalError` that `json.Unmarshal` returns for its nil `*State`
target. -/
theorem LoadState_existing_file_fails (engine : JsonEngine) (fs : FS) (data : Scanned)
    (readErr : Option IOErr) (hnode : fs.node = .file data readErr) :
    (LoadState engine fs).1 = none ∧
    (LoadState engine fs).2 ≠ none ∧
    (∀ v, readErr = none → data = .value v →
      (LoadState engine fs).2 = some (.json (.invalidUnmarshal "*main.State"))) := by
  cases readErr with
  | some e =>
    rw [LoadState_unreadable engine fs data e hnode]
    refine ⟨rfl, by simp, ?_⟩
    intro v he; cases he
  | none =>
    obtain ⟨e, he, hl⟩ := LoadState_readable engine fs data hnode
    rw [hl]
    refine ⟨rfl, by simp, ?_⟩
    intro v _ hv
    subst hv
    rw [jsonUnmarshalNil_value] at he
    cases he
    rfl

/-- Witness of C10: a readable file holding the JSON of the default snapshot. -/
theorem LoadState_existing_file_fails_witness :
    (diskWith (.value (stateJson DefaultState))).node
      = .file (.value (stateJson DefaultState)) none ∧
    ((LoadState .v2 (diskWith (.value (stateJson DefaultState)))).1 = none ∧
     (LoadState .v2 (diskWith (.value (stateJson DefaultState)))).2 ≠ none ∧
     (∀ v, (none : Option IOErr) = none → Scanned.value (stateJson DefaultState) = .value v →
       (LoadState .v2 (diskWith (.value (stateJson DefaultState)))).2
         = some (.json (.invalidUnmarshal "*main.State")))) :=
  ⟨rfl, LoadState_existing_file_fails .v2 (diskWith (.value (stateJson DefaultState)))
    (.value (stateJson DefaultState)) none rfl⟩

/-- Whatever the snapshot, the file system and the engine, when `SaveState`
returns a nil error the file holds the JSON of the snapshot and the
`LoadState` that follows returns a nil snapshot and an error. -/
theorem SaveState_LoadState_never_round_trips (engine : JsonEngine) (s : State) (fs : FS)
    (hsave : (SaveState s fs).2 = none) :
    (∃ readErr, (SaveState s fs).1.node = .file (.value (stateJson s)) readErr) ∧
    (LoadState engine (SaveState s fs).1).1 = none ∧
    (LoadState engine (SaveState s fs).1).2 ≠ none := by
  obtain ⟨node, mkdirErr, writeErr⟩ := fs
  cases node with
  | notDir e => simp [SaveState, jsonMarshalIndent, osMkdirAll] at hsave
  | absent =>
    cases mkdirErr with
    | some e => simp [SaveState, jsonMarshalIndent, osMkdirAll] at hsave
    | none =>
      cases writeErr with
      | some e => simp [SaveState, jsonMarshalIndent, osMkdirAll, osWriteFile] at hsave
      | none =>
        refine ⟨⟨none, rfl⟩, ?_, ?_⟩ <;> cases engine <;>
          simp [SaveState, jsonMarshalIndent, osMkdirAll, osWriteFile, LoadState, osStat,
            osIsNotExist, osReadFile, jsonUnmarshalNil]
  | file data readErr =>
    cases mkdirErr with
    | some e => simp [SaveState, jsonMarshalIndent, osMkdirAll] at hsave
    | none =>
      cases writeErr with
      | some e => simp [SaveState, jsonMarshalIndent, osMkdirAll, osWriteFile] at hsave
      | none =>
        cases readErr with
        | none =>
          refine ⟨⟨none, rfl⟩, ?_, ?_⟩ <;> cases engine <;>
            simp [SaveState, jsonMarshalIndent, osMkdirAll, osWriteFile, LoadState, osStat,
              osIsNotExist, osReadFile, jsonUnmarshalNil]
        | some e =>
          refine ⟨⟨some e, rfl⟩, ?_, ?_⟩ <;>
            simp [SaveState, jsonMarshalIndent, osMkdirAll, osWriteFile, LoadState, osStat,
              osIsNotExist, osReadFile]

/-- C3 (the code at the failing input): on a file system with nothing at
`dir/state.json` and no failing operation, `SaveState(DefaultState())`
returns a nil error and writes the serialised snapshot, and the `LoadState`
that follows returns, on either engine, a nil snapshot and an
`InvalidUnmarshalError`. -/
theorem SaveState_then_LoadState_fails (engine : JsonEngine) :
    (SaveState DefaultState emptyDisk).2 = none ∧
    (∃ data, jsonMarshalIndent DefaultState = .ok data ∧
      (SaveState DefaultState emptyDisk).1.node = .file data none) ∧
    LoadState engine (SaveState DefaultState emptyDisk).1
      = (none, some (.json (.invalidUnmarshal "*main.State"))) := by
  cases engine <;> exact ⟨rfl, ⟨_, rfl, rfl⟩, rfl⟩

/-! ## Decoding a submission -/

theorem membersFor_cons_none (f : SubmissionField) (kv : String × Json)
    (rest : List (String × Json)) (h : fieldFor kv.1 = none) :
    membersFor f (kv :: rest) = membersFor f rest := by
  simp [membersFor, List.filter_cons, h]

theorem membersFor_cons_same (f : SubmissionField) (kv : String × Json)
    (rest : List (String × Json)) (h : fieldFor kv.1 = some f) :
    membersFor f (kv :: rest) = kv.2 :: membersFor f rest := by
  simp [membersFor, List.filter_cons, h]

theorem membersFor_cons_other (f g : SubmissionField) (kv : String × Json)
    (rest : List (String × Json)) (h : fieldFor kv.1 = some g) (hfg : g ≠ f) :
    membersFor f (kv :: rest) = membersFor f rest := by
  simp [membersFor, List.filter_cons, h, hfg]

/-- Decoding the members of an object in which at most one key selects
`Emoji`, with a string value `e`, and at most one key selects `Index`, with
an integer value `i` in the range of `int`. -/
theorem foldl_decodeMember (e : String) (i : Int) (hrange : minInt ≤ i ∧ i ≤ maxInt)
    (fields : List (String × Json)) :
    ∀ st : DecodeState,
      (membersFor .Emoji fields = [] ∨ membersFor .Emoji fields = [.str e]) →
      (membersFor .Index fields = [] ∨ membersFor .Index fields = [.int i]) →
      fields.foldl decodeMember st =
        { sub :=
            { Emoji := if (membersFor .Emoji fields).isEmpty then st.sub.Emoji else e
              Index := if (membersFor .Index fields).isEmpty then st.sub.Index else i }
          savedError := st.savedError } := by
  induction fields with
  | nil => intro st _ _; rfl
  | cons kv rest ih =>
    intro st hE hI
    rw [List.foldl_cons]
    cases hf : fieldFor kv.1 with
    | none =>
      rw [membersFor_cons_none _ kv rest hf] at hE hI
      rw [membersFor_cons_none _ kv rest hf, membersFor_cons_none _ kv rest hf]
      have hst : decodeMember st kv = st := by simp [decodeMember, hf]
      rw [hst]
      exact ih st hE hI
    | some f =>
      cases f with
      | Emoji =>
        rw [membersFor_cons_same _ kv rest hf] at hE
        rw [membersFor_cons_other .Index .Emoji kv rest hf (by decide)] at hI
        rw [membersFor_cons_same _ kv rest hf,
          membersFor_cons_other .Index .Emoji kv rest hf (by decide)]
        have hkv : kv.2 = .str e ∧ membersFor .Emoji rest = [] := by
          rcases hE with h | h
          · cases h
          · exact List.cons.inj h
        have hst : decodeMember st kv
            = { st with sub := { st.sub with Emoji := e } } := by
          simp [decodeMember, hf, hkv.1, storeEmoji]
        rw [hst, ih _ (Or.inl hkv.2) hI]
        simp [hkv.2]
      | Index =>
        rw [membersFor_cons_same _ kv rest hf] at hI
        rw [membersFor_cons_other .Emoji .Index kv rest hf (by decide)] at hE
        rw [membersFor_cons_same _ kv rest hf,
          membersFor_cons_other .Emoji .Index kv rest hf (by decide)]
        have hkv : kv.2 = .int i ∧ membersFor .Index rest = [] := by
          rcases hI with h | h
          · cases h
          · exact List.cons.inj h
        have hst : decodeMember st kv
            = { st with sub := { st.sub with Index := i } } := by
          simp [decodeMember, hf, hkv.1, storeIndex, hrange]
        rw [hst, ih _ hE (Or.inl hkv.2)]
        simp [hkv.2]

/-- Decoding an object with one member for `Emoji` and one for `Index`. -/
theorem Decode_object (fields : List (String × Json)) (e : String) (i : Int)
    (hE : membersFor .Emoji fields = [.str e])
    (hI : membersFor .Index fields = [.int i])
    (hrange : minInt ≤ i ∧ i ≤ maxInt) :
    Decode (.value (.obj fields)) = .ok { Emoji := e, Index := i } := by
  have h := foldl_decodeMember e i hrange fields
    { sub := { Emoji := "", Index := 0 }, savedError := none } (Or.inr hE) (Or.inr hI)
  simp only [hE, hI, List.isEmpty_cons] at h
  simp [Decode, decodeValue, h]

/-- C6 (as amended): the JSON names of a submission are `emoji` and
`location`. For every request body that is a JSON object in which exactly one
member's key selects `Emoji` (the key `emoji`, in any letter case), with a
string value `e`, and exactly one member's key selects `Index` (the key
`location`, in any letter case), with an integer value `i` in the range of
`int`, whatever its other members, `postEmojiHandler` decodes the submission
`(e, i)`: on a grid of `size*size` cells, with `0 ≤ i < size*size` it answers
200 and sets cell `i` to `e`, leaving the other cells as they were, and with
`i` out of that range it answers 400 "Invalid index" and changes nothing. -/
theorem postEmojiHandler_location_member (w : World) (fields : List (String × Json))
    (e : String) (i : Int)
    (hE : membersFor .Emoji fields = [.str e])
    (hI : membersFor .Index fields = [.int i])
    (hrange : minInt ≤ i ∧ i ≤ maxInt)
    (hlen : w.square.Emojis.length = size * size) :
    Decode (.value (.obj fields)) = .ok { Emoji := e, Index := i } ∧
    (0 ≤ i ∧ i < ((size * size : Nat) : Int) →
      (postEmojiHandler w (.value (.obj fields))).2.status = StatusOK ∧
      (postEmojiHandler w (.value (.obj fields))).1.square.Emojis[i.toNat]? = some e ∧
      ∀ j : Nat, j ≠ i.toNat →
        (postEmojiHandler w (.value (.obj fields))).1.square.Emojis[j]?
          = w.square.Emojis[j]?) ∧
    (i < 0 ∨ i ≥ ((size * size : Nat) : Int) →
      (postEmojiHandler w (.value (.obj fields))).2.status = StatusBadRequest ∧
      (postEmojiHandler w (.value (.obj fields))).2.body = .text "Invalid index\n" ∧
      (postEmojiHandler w (.value (.obj fields))).1 = w) := by
  have hdec := Decode_object fields e i hE hI hrange
  refine ⟨hdec, ?_, ?_⟩
  · rintro ⟨h0, h1⟩
    have hin : ¬ ((EmojiSubmission.mk e i).Index < 0 ∨
        (EmojiSubmission.mk e i).Index ≥ (w.square.Emojis.length : Int)) := by
      simp only [hlen]; omega
    rw [postEmojiHandler_accept w _ _ hdec hin]
    have hi : i.toNat < w.square.Emojis.length := by rw [hlen]; omega
    refine ⟨rfl, ?_, ?_⟩
    · simp [hi]
    · intro j hj
      simp [List.getElem?_set, Ne.symm hj]
  · intro hi
    have hout : (EmojiSubmission.mk e i).Index < 0 ∨
        (EmojiSubmission.mk e i).Index ≥ (w.square.Emojis.length : Int) := by
      simp only [hlen]; omega
    rw [postEmojiHandler_reject w _ _ hdec hout]
    exact ⟨rfl, rfl, rfl⟩

/-- Witness of C6 (as amended): the body
`{"emoji": "😀", "index": 7, "location": 2}` on the default grid. -/
theorem postEmojiHandler_location_member_witness :
    membersFor .Emoji [("emoji", .str "😀"), ("index", .int 7), ("location", .int 2)]
      = [.str "😀"] ∧
    membersFor .Index [("emoji", .str "😀"), ("index", .int 7), ("location", .int 2)]
      = [.int 2] ∧
    (minInt ≤ 2 ∧ (2 : Int) ≤ maxInt) ∧
    defaultWorld.square.Emojis.length = size * size ∧
    (Decode (.value (.obj [("emoji", .str "😀"), ("index", .int 7), ("location", .int 2)]))
        = .ok { Emoji := "😀", Index := 2 } ∧
     (0 ≤ (2 : Int) ∧ (2 : Int) < ((size * size : Nat) : Int) →
       (postEmojiHandler defaultWorld
          (.value (.obj [("emoji", .str "😀"), ("index", .int 7), ("location", .int 2)]))).2.status
          = StatusOK ∧
       (postEmojiHandler defaultWorld
          (.value (.obj [("emoji", .str "😀"), ("index", .int 7),
            ("location", .int 2)]))).1.square.Emojis[(2 : Int).toNat]? = some "😀" ∧
       ∀ j : Nat, j ≠ (2 : Int).toNat →
         (postEmojiHandler defaultWorld
            (.value (.obj [("emoji", .str "😀"), ("index", .int 7),
              ("location", .int 2)]))).1.square.Emojis[j]?
           = defaultWorld.square.Emojis[j]?) ∧
     ((2 : Int) < 0 ∨ (2 : Int) ≥ ((size * size : Nat) : Int) →
       (postEmojiHandler defaultWorld
          (.value (.obj [("emoji", .str "😀"), ("index", .int 7), ("location", .int 2)]))).2.status
          = StatusBadRequest ∧
       (postEmojiHandler defaultWorld
          (.value (.obj [("emoji", .str "😀"), ("index", .int 7), ("location", .int 2)]))).2.body
          = .text "Invalid index\n" ∧
       (postEmojiHandler defaultWorld
          (.value (.obj [("emoji", .str "😀"), ("index", .int 7), ("location", .int 2)]))).1
          = defaultWorld)) :=
  ⟨rfl, rfl, by decide, rfl,
    postEmojiHandler_location_member defaultWorld
      [("emoji", .str "😀"), ("index", .int 7), ("location", .int 2)] "😀" 2
      rfl rfl (by decide) rfl⟩

/-- C6 (counterexample): the key `index` selects no field of
`EmojiSubmission`. The body `{"emoji": "x", "index": 5}` decodes to the
submission `("x", 0)`: on the default grid the handler answers 200, sets cell
0 and leaves cell 5 empty. The body `{"emoji": "x", "index": 256}` is not
rejected: the handler answers 200 and sets cell 0. -/
theorem postEmojiHandler_index_member_ignored :
    fieldFor "index" = none ∧
    Decode (indexBody "x" 5) = .ok { Emoji := "x", Index := 0 } ∧
    (postEmojiHandler defaultWorld (indexBody "x" 5)).2.status = StatusOK ∧
    (postEmojiHandler defaultWorld (indexBody "x" 5)).1.square.Emojis[5]? = some "" ∧
    (postEmojiHandler defaultWorld (indexBody "x" 5)).1.square.Emojis[0]? = some "x" ∧
    Decode (indexBody "x" 256) = .ok { Emoji := "x", Index := 0 } ∧
    (postEmojiHandler defaultWorld (indexBody "x" 256)).2.status = StatusOK ∧
    (postEmojiHandler defaultWorld (indexBody "x" 256)).1.square.Emojis[0]? = some "x" :=
  ⟨by decide, rfl, rfl, rfl, rfl, rfl, rfl, rfl⟩

end NowReact
